import Mathlib

/-!
# Verification of the concurrent-api-gateway aggregation handlers

Shallow embedding of the three Gin handlers of
`Akshat-Kumar-work/concurrent-api-gateway`:

* `AggregateHandler` (internal/api/handlers, "Version 1: Basic WaitGroup"):
  goroutines write name-tagged results/errors into shared structures under a
  mutex; the response carries a `success` field `len(errors) == 0`.
* `AggregateChannelHandler` (internal/api/handlers/aggregate_channel.go):
  goroutines send a `result` struct on a buffered channel; the collector loop
  iterates over the registry's keys, receives one result per iteration,
  appends only `res.service` on error and stores `results[service] = res.data`
  keyed by the *loop variable*.  No deadline, no `timed_out` field.
* `AggregateHandlerWithTimeout`
  (internal/api/handlers/aggregate_context_timeout.go): a 1-second
  `context.WithTimeout`; each worker races its fetch against `ctx.Done()` and
  sends either the fetch's result or a synthetic
  `"service timeout: " ++ ctx.Err()` failure; a cleanup goroutine closes the
  channel after `wg.Wait()`; the collector ranges until close and the response
  carries `timed_out = (ctx.Err() != nil)`.

Timing model: each fetch operation is given an explicit completion time in
milliseconds.  The deadline of the timeout handler fires at `budget`
milliseconds (the source hardcodes 1000); a worker's `select` takes the fetch
branch iff the fetch completes strictly before the deadline.  Concurrency is
modelled by quantifying over an arbitrary arrival permutation of the
dispatched outcomes (channel arrival order and Go map iteration order are
nondeterministic).  Upstream cancellation of the inbound request is not
modelled; the deadline timer is the modelled trigger of the DeadlineSignal.
-/

namespace Gateway

/-- Opaque payload values returned by downstream services (`any` in Go).
`nil` is Go's zero value of `any`, which is what the synthetic timeout
result carries in its `data` field. -/
inductive Payload where
  | nil : Payload
  | str : String → Payload
  | num : Int → Payload
deriving DecidableEq, Repr

/-- Behaviour of one fetch operation for one subject identifier:
the time (ms) at which `fn(userID)` returns, and the `(data, err)` pair it
returns.  `err = none` is Go's `err == nil`. -/
structure FetchBehavior where
  time : Nat
  data : Payload
  err : Option String
deriving DecidableEq, Repr

/-- A fetch operation: subject identifier → behaviour.  The concrete fetchers
(`service.FetchUser`, …) live in `pkg/service`, outside the aggregation core;
the core treats them as opaque. -/
abbrev FetchOp := String → FetchBehavior

/-- The Call Registry: ordered mapping service name → fetch operation
(`servicesToCall` in each handler). -/
abbrev Registry := List (String × FetchOp)

/-- The `result` struct shared by the channel and timeout handlers:
`{ service string; data any; err error }`. -/
structure GoResult where
  service : String
  data : Payload
  err : Option String
deriving DecidableEq, Repr

/-- Text of `ctx.Err().Error()` once the 1-second deadline has fired. -/
def ctxDeadlineErr : String := "context deadline exceeded"

/-- The budget hardcoded in `AggregateHandlerWithTimeout`:
`context.WithTimeout(c.Request.Context(), 1*time.Second)`, in ms. -/
def timeoutBudgetMs : Nat := 1000

/-- The `user_id` defaulting common to all three handlers:
`userID := c.Query("user_id"); if userID == "" { userID = "123" }`.
Gin's `c.Query` returns `""` when the parameter is absent, so absent and
empty are both the `""` case. -/
def effectiveUserID (raw : String) : String :=
  if raw = "" then "123" else raw

/-- One worker of `AggregateHandlerWithTimeout`: the inner goroutine runs
`fn(userID)`; the outer `select` races `innerChan` against `ctx.Done()`.
The fetch branch wins iff the fetch returns strictly before the deadline;
otherwise the worker sends the synthetic timeout `result` (whose `data` is
Go's zero value `nil`). -/
def workerOutcome (budget : Nat) (uid name : String) (f : FetchOp) : GoResult :=
  if (f uid).time < budget then
    { service := name, data := (f uid).data, err := (f uid).err }
  else
    { service := name, data := Payload.nil,
      err := some ("service timeout: " ++ ctxDeadlineErr) }

/-- The Dispatcher of the timeout handler: one worker per registry entry,
each passed the same subject identifier, each sending exactly one `result`
on `resultChan`. -/
def dispatchTimeout (budget : Nat) (uid : String) (reg : Registry) : List GoResult :=
  reg.map fun nf => workerOutcome budget uid nf.1 nf.2

/-- Call trace of the Dispatcher: for each registry entry, the subject
identifier handed to its fetch operation paired with the worker's outcome. -/
def dispatchTimeoutTrace (budget : Nat) (uid : String) (reg : Registry) :
    List (String × GoResult) :=
  reg.map fun nf => (uid, workerOutcome budget uid nf.1 nf.2)

/-- A worker of the channel handler (and of the WaitGroup handler): no
deadline, the outcome is whatever the fetch returns, however late. -/
def workerOutcomeNoTimeout (uid name : String) (f : FetchOp) : GoResult :=
  { service := name, data := (f uid).data, err := (f uid).err }

/-- Dispatcher of the channel / WaitGroup handlers. -/
def dispatchNoTimeout (uid : String) (reg : Registry) : List GoResult :=
  reg.map fun nf => workerOutcomeNoTimeout uid nf.1 nf.2

/-- One merge step of the timeout handler's collector (also the body of the
WaitGroup handler's critical section):
`if res.err != nil { errors = append(errors, res.service+": "+res.err.Error()) }
else { results[res.service] = res.data }`.  The registry's keys are distinct
and each service yields one outcome, so the map insert is an append. -/
def mergeTagged (acc : List (String × Payload) × List String) (res : GoResult) :
    List (String × Payload) × List String :=
  match res.err with
  | some e => (acc.1, acc.2 ++ [res.service ++ ": " ++ e])
  | none => (acc.1 ++ [(res.service, res.data)], acc.2)

/-- The timeout handler's collector: `for res := range resultChan { … }`,
processing the outcomes in arrival order until the cleanup goroutine closes
the channel (after all workers are done). -/
def collectTagged (arrival : List GoResult) : List (String × Payload) × List String :=
  arrival.foldl mergeTagged ([], [])

/-- One merge step of `AggregateChannelHandler`'s collector loop body,
parameterised by the loop variable `service` (a registry key) and the
received `res`:
`if res.err != nil { errors = append(errors, res.service) }
else { results[service] = res.data }`. -/
def mergeChannel (acc : List (String × Payload) × List String)
    (kr : String × GoResult) : List (String × Payload) × List String :=
  match kr.2.err with
  | some _ => (acc.1, acc.2 ++ [kr.2.service])
  | none => (acc.1 ++ [(kr.1, kr.2.data)], acc.2)

/-- Collector of `AggregateChannelHandler`: `for service := range servicesToCall
{ res := <-resultChan; … }` — the loop iterates over the registry's keys (in
Go map iteration order `iterKeys`) and receives the outcomes in arrival
order, pairing the two orders positionally. -/
def collectChannel (iterKeys : List String) (arrival : List GoResult) :
    List (String × Payload) × List String :=
  (iterKeys.zip arrival).foldl mergeChannel ([], [])

/-- Time at which worker `nf` resolves in the timeout handler: its fetch's
completion, cut off at the deadline. -/
def workerDoneTime (budget : Nat) (uid : String) (nf : String × FetchOp) : Nat :=
  min ((nf.2 uid).time) budget

/-- Time at which the timeout handler finalizes: all workers have resolved
(`wg.Wait()` in the cleanup goroutine, then the range loop exits). -/
def finalizeTime (budget : Nat) (uid : String) (reg : Registry) : Nat :=
  reg.foldl (fun m nf => max m (workerDoneTime budget uid nf)) 0

/-- Value of `ctx.Err() != nil` at finalization: in the model the deadline has fired
by the time the collector finalizes iff some worker's `select` took the
`ctx.Done()` branch, i.e. some fetch did not complete before the budget. -/
def timedOutFlag (budget : Nat) (uid : String) (reg : Registry) : Bool :=
  reg.any fun nf => budget ≤ (nf.2 uid).time

/-- The finalize time of the channel handler: it has no deadline, so it waits
for the slowest fetch, however long. -/
def channelFinalizeTime (uid : String) (reg : Registry) : Nat :=
  reg.foldl (fun m nf => max m ((nf.2 uid).time)) 0

/-- The JSON body of `AggregateHandlerWithTimeout`'s response. -/
structure TimeoutResponse where
  data : List (String × Payload)
  errors : List String
  duration_ms : Nat
  concurrency : String
  timed_out : Bool
deriving DecidableEq, Repr

/-- The JSON body of `AggregateChannelHandler`'s response (no `timed_out`). -/
structure ChannelResponse where
  data : List (String × Payload)
  errors : List String
  duration_ms : Nat
  concurrency : String
deriving DecidableEq, Repr

/-- The JSON body of `AggregateHandler`'s response (no `timed_out`; a
`success` field instead). -/
structure WGResponse where
  success : Bool
  data : List (String × Payload)
  errors : List String
  duration_ms : Nat
  concurrency : String
deriving DecidableEq, Repr

/-- Handler `AggregateHandlerWithTimeout`, end to end: default the subject id, race
every fetch against the shared deadline, collect the arrivals, finalize. -/
def aggregateWithTimeout (budget : Nat) (raw : String) (reg : Registry)
    (arrival : List GoResult) : TimeoutResponse :=
  let uid := effectiveUserID raw
  let c := collectTagged arrival
  { data := c.1
    errors := c.2
    duration_ms := finalizeTime budget uid reg
    concurrency := "context_with_timeout"
    timed_out := timedOutFlag budget uid reg }

/-- Handler `AggregateChannelHandler`, end to end. -/
def aggregateChannel (raw : String) (reg : Registry) (iterKeys : List String)
    (arrival : List GoResult) : ChannelResponse :=
  let uid := effectiveUserID raw
  let c := collectChannel iterKeys arrival
  { data := c.1
    errors := c.2
    duration_ms := channelFinalizeTime uid reg
    concurrency := "channels" }

/-- Handler `AggregateHandler` (WaitGroup version), end to end: goroutines merge
their name-tagged outcome into the shared map/slice in lock-acquisition
order; `success` is `len(errors) == 0`. -/
def aggregateWG (raw : String) (reg : Registry) (arrival : List GoResult) :
    WGResponse :=
  let uid := effectiveUserID raw
  let c := collectTagged arrival
  { success := c.2.length == 0
    data := c.1
    errors := c.2
    duration_ms := channelFinalizeTime uid reg
    concurrency := "waitgroup" }

/-- The keys of the `gin.H` literal of `AggregateHandlerWithTimeout`. -/
def timeoutResponseFields : List String :=
  ["data", "errors", "duration_ms", "concurrency", "timed_out"]

/-- The keys of the `gin.H` literal of `AggregateChannelHandler`. -/
def channelResponseFields : List String :=
  ["data", "errors", "duration_ms", "concurrency"]

/-- The keys of the `gin.H` literal of `AggregateHandler`. -/
def wgResponseFields : List String :=
  ["success", "data", "errors", "duration_ms", "concurrency"]

/-- The hardcoded service registry shared by all three handlers, as a
function of the three fetchers from `pkg/service` (whose bodies are outside
the core). -/
def servicesToCall (fetchUser fetchOrders fetchNotifications : FetchOp) :
    Registry :=
  [("user", fetchUser), ("orders", fetchOrders),
   ("notifications", fetchNotifications)]

/-- Call trace of the no-timeout Dispatcher (channel / WaitGroup handlers). -/
def dispatchNoTimeoutTrace (uid : String) (reg : Registry) :
    List (String × GoResult) :=
  reg.map fun nf => (uid, workerOutcomeNoTimeout uid nf.1 nf.2)

/-- Contribution of one received outcome to the `results` map of the tagged
collectors: present iff `res.err == nil`. -/
def okEntry (r : GoResult) : Option (String × Payload) :=
  if r.err = none then some (r.service, r.data) else none

/-- Contribution of one received outcome to the `errors` slice of the tagged
collectors: present iff `res.err != nil`, formatted
`res.service + ": " + res.err.Error()`. -/
def errEntry (r : GoResult) : Option String :=
  r.err.map (fun e => r.service ++ ": " ++ e)

lemma foldl_mergeTagged_eq (arrival : List GoResult)
    (acc : List (String × Payload) × List String) :
    arrival.foldl mergeTagged acc
      = (acc.1 ++ arrival.filterMap okEntry, acc.2 ++ arrival.filterMap errEntry) := by
  induction arrival generalizing acc with
  | nil => simp
  | cons r rest ih =>
      cases h : r.err with
      | none =>
          simp [List.foldl_cons, mergeTagged, h, ih, okEntry, errEntry,
            List.filterMap_cons, List.append_assoc]
      | some e =>
          simp [List.foldl_cons, mergeTagged, h, ih, okEntry, errEntry,
            List.filterMap_cons, List.append_assoc]

lemma collectTagged_eq (arrival : List GoResult) :
    collectTagged arrival
      = (arrival.filterMap okEntry, arrival.filterMap errEntry) := by
  simp [collectTagged, foldl_mergeTagged_eq]

lemma workerOutcome_fast (budget : Nat) (uid name : String) (f : FetchOp)
    (h : (f uid).time < budget) :
    workerOutcome budget uid name f
      = { service := name, data := (f uid).data, err := (f uid).err } := by
  unfold workerOutcome
  rw [if_pos h]

lemma workerOutcome_slow (budget : Nat) (uid name : String) (f : FetchOp)
    (h : budget ≤ (f uid).time) :
    workerOutcome budget uid name f
      = { service := name, data := Payload.nil,
          err := some ("service timeout: " ++ ctxDeadlineErr) } := by
  unfold workerOutcome
  rw [if_neg (by omega)]

lemma workerOutcome_service (budget : Nat) (uid name : String) (f : FetchOp) :
    (workerOutcome budget uid name f).service = name := by
  unfold workerOutcome
  split <;> rfl

lemma dispatchTimeout_services (budget : Nat) (uid : String) (reg : Registry) :
    (dispatchTimeout budget uid reg).map GoResult.service = reg.map Prod.fst := by
  simp [dispatchTimeout, List.map_map, Function.comp_def, workerOutcome_service]

lemma dispatchNoTimeout_services (uid : String) (reg : Registry) :
    (dispatchNoTimeout uid reg).map GoResult.service = reg.map Prod.fst := by
  simp [dispatchNoTimeout, List.map_map, Function.comp_def, workerOutcomeNoTimeout]

lemma filterMap_eq_filter_map {α β : Type} (l : List α) (p : α → Bool)
    (g : α → β) (f : α → Option β)
    (h : ∀ a ∈ l, f a = if p a then some (g a) else none) :
    l.filterMap f = (l.filter p).map g := by
  induction l with
  | nil => rfl
  | cons a rest ih =>
      have ha := h a (List.mem_cons_self a rest)
      have hrest : ∀ b ∈ rest, f b = if p b then some (g b) else none :=
        fun b hb => h b (List.mem_cons_of_mem a hb)
      by_cases hp : p a
      · simp [List.filterMap_cons, List.filter_cons, ha, hp, ih hrest]
      · simp [List.filterMap_cons, List.filter_cons, ha, hp, ih hrest]

lemma length_okEntry_add_errEntry (l : List GoResult) :
    (l.filterMap okEntry).length + (l.filterMap errEntry).length = l.length := by
  induction l with
  | nil => rfl
  | cons r rest ih =>
      cases h : r.err with
      | none => simp [List.filterMap_cons, okEntry, errEntry, h]; omega
      | some e => simp [List.filterMap_cons, okEntry, errEntry, h]; omega

lemma eq_of_fst_eq_of_nodup {α β : Type} {l : List (α × β)}
    (h : (l.map Prod.fst).Nodup) {a b : α × β}
    (ha : a ∈ l) (hb : b ∈ l) (hfst : a.1 = b.1) : a = b := by
  induction l with
  | nil => cases ha
  | cons c rest ih =>
      rw [List.map_cons, List.nodup_cons] at h
      rcases List.mem_cons.mp ha with ha1 | ha2
      · rcases List.mem_cons.mp hb with hb1 | hb2
        · exact ha1.trans hb1.symm
        · subst ha1
          exact absurd (List.mem_map.mpr ⟨b, hb2, hfst.symm⟩) h.1
      · rcases List.mem_cons.mp hb with hb1 | hb2
        · subst hb1
          exact absurd (List.mem_map.mpr ⟨a, ha2, hfst⟩) h.1
        · exact ih h.2 ha2 hb2

lemma le_foldl_max (b init : Nat) (l : List Nat) :
    b ≤ l.foldl max init ↔ b ≤ init ∨ ∃ x ∈ l, b ≤ x := by
  induction l generalizing init with
  | nil => simp
  | cons a rest ih =>
      rw [List.foldl_cons, ih]
      constructor
      · rintro (h | h)
        · rcases le_max_iff.mp h with h' | h'
          · exact Or.inl h'
          · exact Or.inr ⟨a, List.mem_cons_self a rest, h'⟩
        · rcases h with ⟨x, hx, hbx⟩
          exact Or.inr ⟨x, List.mem_cons_of_mem a hx, hbx⟩
      · rintro (h | ⟨x, hx, hbx⟩)
        · exact Or.inl (le_max_iff.mpr (Or.inl h))
        · rcases List.mem_cons.mp hx with rfl | hx'
          · exact Or.inl (le_max_iff.mpr (Or.inr hbx))
          · exact Or.inr ⟨x, hx', hbx⟩

lemma foldl_max_le (b : Nat) (l : List Nat) :
    ∀ init, init ≤ b → (∀ x ∈ l, x ≤ b) → l.foldl max init ≤ b := by
  induction l with
  | nil =>
      intro init hinit _
      simpa using hinit
  | cons a rest ih =>
      intro init hinit h
      rw [List.foldl_cons]
      exact ih _ (max_le hinit (h a (List.mem_cons_self a rest)))
        (fun x hx => h x (List.mem_cons_of_mem a hx))

lemma finalizeTime_as_foldl_max (budget : Nat) (uid : String) (reg : Registry) :
    finalizeTime budget uid reg
      = (reg.map (workerDoneTime budget uid)).foldl max 0 := by
  simp [finalizeTime, List.foldl_map]

lemma finalizeTime_le_budget (budget : Nat) (uid : String) (reg : Registry) :
    finalizeTime budget uid reg ≤ budget := by
  rw [finalizeTime_as_foldl_max]
  refine foldl_max_le budget _ 0 (Nat.zero_le budget) ?_
  intro x hx
  rcases List.mem_map.mp hx with ⟨nf, _, rfl⟩
  exact min_le_right _ _

lemma foldl_mergeChannel_all_ok (ps : List (String × GoResult))
    (acc : List (String × Payload) × List String)
    (h : ∀ p ∈ ps, p.2.err = none) :
    ps.foldl mergeChannel acc
      = (acc.1 ++ ps.map (fun p => (p.1, p.2.data)), acc.2) := by
  induction ps generalizing acc with
  | nil => simp
  | cons p rest ih =>
      have hp := h p (List.mem_cons_self p rest)
      have hrest : ∀ q ∈ rest, q.2.err = none :=
        fun q hq => h q (List.mem_cons_of_mem p hq)
      simp [List.foldl_cons, mergeChannel, hp, ih _ hrest, List.append_assoc]

lemma map_const_eq_replicate {α β : Type} (l : List α) (b : β) :
    l.map (fun _ => b) = List.replicate l.length b := by
  induction l with
  | nil => rfl
  | cons a rest ih => simp [List.replicate_succ, ih]

/-- Concrete fetch behaviour: succeeds quickly (used in witnesses). -/
def fastUser : FetchOp := fun _ => { time := 50, data := Payload.str "user-data", err := none }

/-- Concrete fetch behaviour: fails quickly with reason `"boom"`. -/
def fastFailOrders : FetchOp := fun _ => { time := 60, data := Payload.nil, err := some "boom" }

/-- Concrete fetch behaviour: succeeds, but only after 2000 ms — past the
1000 ms budget of `AggregateHandlerWithTimeout`. -/
def slowNotifications : FetchOp := fun _ => { time := 2000, data := Payload.str "late", err := none }

/-- Concrete two-entry registry used by witnesses. -/
def witnessReg : Registry := [("user", fastUser), ("orders", fastFailOrders)]

/-- C1: for every aggregation of the timeout handler over a Call Registry of
N entries, the Collector receives exactly one Outcome per entry: whatever the
arrival order (any permutation of the dispatched outcomes), the multiset of
serviceNames received is exactly the registry's key multiset — no more, no
fewer, and (the registry's keys being distinct) no duplicates — and the
receive loop consumes exactly N outcomes, hence terminates once all N have
arrived. -/
theorem collector_receives_one_outcome_per_entry
    (budget : Nat) (uid : String) (reg : Registry) (arrival : List GoResult)
    (hnd : (reg.map Prod.fst).Nodup)
    (hp : List.Perm arrival (dispatchTimeout budget uid reg)) :
    List.Perm (arrival.map GoResult.service) (reg.map Prod.fst)
      ∧ (arrival.map GoResult.service).Nodup
      ∧ arrival.length = reg.length := by
  have hmap : List.Perm (arrival.map GoResult.service)
      ((dispatchTimeout budget uid reg).map GoResult.service) :=
    hp.map _
  rw [dispatchTimeout_services] at hmap
  refine ⟨hmap, hmap.nodup_iff.mpr hnd, ?_⟩
  have hlen := hp.length_eq
  simpa [dispatchTimeout] using hlen

/-- Witness for C1 at a concrete two-service registry, with the outcomes
arriving in reversed dispatch order. -/
theorem collector_receives_one_outcome_per_entry_witness :
    List.Perm (((dispatchTimeout 1000 "123" witnessReg).reverse).map GoResult.service)
        (witnessReg.map Prod.fst)
      ∧ (((dispatchTimeout 1000 "123" witnessReg).reverse).map GoResult.service).Nodup
      ∧ (dispatchTimeout 1000 "123" witnessReg).reverse.length = witnessReg.length :=
  collector_receives_one_outcome_per_entry 1000 "123" witnessReg
    (dispatchTimeout 1000 "123" witnessReg).reverse (by decide) (by decide)

/-- C9: each aggregation works on the registry built per invocation inside
the handler (the `servicesToCall` literal over the three fetchers), together
with the subject identifier and the budget; the aggregation is a pure
function of that registry (immutability), and the set of services dispatched
— by the timeout handler and by the channel/WaitGroup handlers alike — is
exactly the supplied registry's key list `["user", "orders",
"notifications"]`. -/
theorem registry_fixed_and_fully_dispatched
    (budget : Nat) (uid : String) (fetchUser fetchOrders fetchNotifications : FetchOp) :
    ((dispatchTimeout budget uid
        (servicesToCall fetchUser fetchOrders fetchNotifications)).map GoResult.service
      = (servicesToCall fetchUser fetchOrders fetchNotifications).map Prod.fst)
    ∧ ((dispatchNoTimeout uid
        (servicesToCall fetchUser fetchOrders fetchNotifications)).map GoResult.service
      = (servicesToCall fetchUser fetchOrders fetchNotifications).map Prod.fst)
    ∧ (servicesToCall fetchUser fetchOrders fetchNotifications).map Prod.fst
      = ["user", "orders", "notifications"] :=
  ⟨dispatchTimeout_services budget uid _, dispatchNoTimeout_services uid _, rfl⟩

/-- C10: for every handler, an absent or empty `user_id` query parameter is
replaced by the default subject identifier `"123"`, and the (defaulted)
subject identifier is passed unchanged to every FetchOperation of the
registry: the call trace of either dispatcher hands the same string to all N
entries, and the handlers behave identically on `raw = ""` and on
`raw = "123"`. -/
theorem default_subject_identifier
    (budget : Nat) (reg : Registry) (raw : String) (arrival : List GoResult)
    (iterKeys : List String) :
    effectiveUserID "" = "123"
      ∧ (raw ≠ "" → effectiveUserID raw = raw)
      ∧ (dispatchTimeoutTrace budget (effectiveUserID raw) reg).map Prod.fst
          = List.replicate reg.length (effectiveUserID raw)
      ∧ (dispatchNoTimeoutTrace (effectiveUserID raw) reg).map Prod.fst
          = List.replicate reg.length (effectiveUserID raw)
      ∧ aggregateWithTimeout budget "" reg arrival
          = aggregateWithTimeout budget "123" reg arrival
      ∧ aggregateChannel "" reg iterKeys arrival
          = aggregateChannel "123" reg iterKeys arrival
      ∧ aggregateWG "" reg arrival = aggregateWG "123" reg arrival := by
  refine ⟨rfl, ?_, ?_, ?_, ?_, ?_, ?_⟩
  · intro h
    simp [effectiveUserID, h]
  · simp [dispatchTimeoutTrace, List.map_map, Function.comp_def,
      map_const_eq_replicate]
  · simp [dispatchNoTimeoutTrace, List.map_map, Function.comp_def,
      map_const_eq_replicate]
  · rfl
  · rfl
  · rfl

/-- Witness for C10: a nonempty `user_id` is kept, an empty one defaults to
`"123"`. -/
theorem default_subject_identifier_witness :
    effectiveUserID "alice" = "alice" ∧ effectiveUserID "" = "123" :=
  ⟨(default_subject_identifier 1000 witnessReg "alice" [] []).2.1 (by decide),
   (default_subject_identifier 1000 witnessReg "" [] []).1⟩

lemma timedOutFlag_iff (budget : Nat) (uid : String) (reg : Registry)
    (hb : 0 < budget) :
    timedOutFlag budget uid reg = true ↔ budget ≤ finalizeTime budget uid reg := by
  rw [finalizeTime_as_foldl_max, le_foldl_max]
  constructor
  · intro h
    rcases List.any_eq_true.mp h with ⟨nf, hmem, hle⟩
    right
    refine ⟨workerDoneTime budget uid nf, List.mem_map.mpr ⟨nf, hmem, rfl⟩, ?_⟩
    exact le_min (of_decide_eq_true hle) (le_refl budget)
  · rintro (h | ⟨x, hx, hbx⟩)
    · omega
    · rcases List.mem_map.mp hx with ⟨nf, hmem, rfl⟩
      exact List.any_eq_true.mpr
        ⟨nf, hmem, decide_eq_true (hbx.trans (min_le_left _ _))⟩

/-- Concrete fetch behaviour: succeeds, but only after 5000 ms. -/
def verySlowFetch : FetchOp := fun _ => { time := 5000, data := Payload.str "late", err := none }

/-- Concrete one-entry registry whose only fetch takes 5000 ms. -/
def regVerySlow : Registry := [("notifications", verySlowFetch)]

/-- C3 counterexample: `AggregateChannelHandler` creates no deadline, so on a
fetch that takes 5000 ms — five times the 1000 ms budget the repository
configures in its timeout handler — the service's Outcome is a *success*,
not a Timeout failure, and the aggregation finalizes only at 5000 ms,
exceeding the budget by far more than a small scheduling overhead.  The
claim, quantified over every aggregation call of the repository, is
therefore false. -/
theorem channel_handler_unbounded_counterexample :
    (workerOutcomeNoTimeout "123" "notifications" verySlowFetch).err = none
      ∧ (aggregateChannel "" regVerySlow ["notifications"]
          (dispatchNoTimeout "123" regVerySlow)).duration_ms = 5000
      ∧ timeoutBudgetMs + timeoutBudgetMs
          < (aggregateChannel "" regVerySlow ["notifications"]
              (dispatchNoTimeout "123" regVerySlow)).duration_ms := by
  exact ⟨rfl, rfl, by decide⟩

/-- C3 amended (restricted to `AggregateHandlerWithTimeout`, the one handler
with a Deadline Governor): every aggregation call of the timeout handler
finalizes within the budget — all workers resolve by `min(fetch time,
budget)`, so the finalize time never exceeds `budget`, no matter how long a
slow fetch takes to complete internally — and any FetchOperation whose
completion time reaches the budget yields the synthetic timeout failure
Outcome rather than a hang. -/
theorem timeout_handler_bounded
    (budget : Nat) (uid : String) (reg : Registry) :
    finalizeTime budget uid reg ≤ budget
      ∧ ∀ nf ∈ reg, budget ≤ (nf.2 uid).time →
          workerOutcome budget uid nf.1 nf.2
            = { service := nf.1, data := Payload.nil,
                err := some ("service timeout: " ++ ctxDeadlineErr) } := by
  refine ⟨finalizeTime_le_budget budget uid reg, ?_⟩
  intro nf _ hslow
  unfold workerOutcome
  rw [if_neg (by omega)]

/-- Witness for the amended C3, at the 5000 ms fetch under the 1000 ms
budget. -/
theorem timeout_handler_bounded_witness :
    finalizeTime 1000 "123" regVerySlow ≤ 1000
      ∧ workerOutcome 1000 "123" "notifications" verySlowFetch
          = { service := "notifications", data := Payload.nil,
              err := some ("service timeout: " ++ ctxDeadlineErr) } :=
  ⟨(timeout_handler_bounded 1000 "123" regVerySlow).1,
   (timeout_handler_bounded 1000 "123" regVerySlow).2
     ("notifications", verySlowFetch) (List.mem_singleton_self _) (by decide)⟩

/-- C6 counterexample: the response of `AggregateChannelHandler` carries no
`timed_out` field at all — its `gin.H` literal has only `data`, `errors`,
`duration_ms`, `concurrency` — and neither does `AggregateHandler`'s, so it
is not the case that every aggregation response contains the four claimed
fields. -/
theorem channel_response_lacks_timed_out :
    "timed_out" ∉ channelResponseFields
      ∧ "timed_out" ∉ wgResponseFields
      ∧ "timed_out" ∈ timeoutResponseFields := by decide

/-- C6 amended: the response of `AggregateHandlerWithTimeout` (alone among
the three handlers) contains the fields `data`, `errors`, `duration_ms` and
`timed_out`, and its `timed_out` boolean is true iff the DeadlineSignal had
fired by the time the Collector finalizes the result — that is, iff the
budget is at most the finalize time. -/
theorem timeout_response_fields_and_flag
    (budget : Nat) (raw : String) (reg : Registry) (arrival : List GoResult)
    (hb : 0 < budget) :
    ("data" ∈ timeoutResponseFields ∧ "errors" ∈ timeoutResponseFields
        ∧ "duration_ms" ∈ timeoutResponseFields
        ∧ "timed_out" ∈ timeoutResponseFields)
      ∧ ((aggregateWithTimeout budget raw reg arrival).timed_out = true
          ↔ budget ≤ finalizeTime budget (effectiveUserID raw) reg) := by
  refine ⟨⟨by decide, by decide, by decide, by decide⟩, ?_⟩
  simpa [aggregateWithTimeout] using
    timedOutFlag_iff budget (effectiveUserID raw) reg hb

/-- Witness for the amended C6, under the repository's 1000 ms budget and
the 5000 ms fetch. -/
theorem timeout_response_fields_and_flag_witness :
    (aggregateWithTimeout 1000 "" regVerySlow []).timed_out = true
      ↔ 1000 ≤ finalizeTime 1000 (effectiveUserID "") regVerySlow :=
  (timeout_response_fields_and_flag 1000 "" regVerySlow [] (by decide)).2

lemma filterMap_ok_dispatch (budget : Nat) (uid : String) (reg : Registry)
    (hin : ∀ nf ∈ reg, (nf.2 uid).time < budget) :
    (dispatchTimeout budget uid reg).filterMap okEntry
      = (reg.filter (fun nf => (nf.2 uid).err.isNone)).map
          (fun nf => (nf.1, (nf.2 uid).data)) := by
  rw [dispatchTimeout, List.filterMap_map]
  refine filterMap_eq_filter_map reg _ _ _ (fun nf hmem => ?_)
  have ht := hin nf hmem
  cases herr : (nf.2 uid).err with
  | none => simp [Function.comp_def, workerOutcome_fast _ _ _ _ ht, okEntry, herr]
  | some e => simp [Function.comp_def, workerOutcome_fast _ _ _ _ ht, okEntry, herr]

lemma filterMap_err_dispatch (budget : Nat) (uid : String) (reg : Registry)
    (hin : ∀ nf ∈ reg, (nf.2 uid).time < budget) :
    (dispatchTimeout budget uid reg).filterMap errEntry
      = (reg.filter (fun nf => !(nf.2 uid).err.isNone)).map
          (fun nf => nf.1 ++ ": " ++ ((nf.2 uid).err.getD "")) := by
  rw [dispatchTimeout, List.filterMap_map]
  refine filterMap_eq_filter_map reg _ _ _ (fun nf hmem => ?_)
  have ht := hin nf hmem
  cases herr : (nf.2 uid).err with
  | none => simp [Function.comp_def, workerOutcome_fast _ _ _ _ ht, errEntry, herr]
  | some e => simp [Function.comp_def, workerOutcome_fast _ _ _ _ ht, errEntry, herr]

lemma mem_ok_names_iff (l : List GoResult) (n : String) :
    n ∈ (l.filterMap okEntry).map Prod.fst
      ↔ ∃ r ∈ l, r.err = none ∧ r.service = n := by
  constructor
  · intro h
    rcases List.mem_map.mp h with ⟨p, hp, rfl⟩
    rcases List.mem_filterMap.mp hp with ⟨r, hr, hok⟩
    by_cases herr : r.err = none
    · rw [okEntry, if_pos herr] at hok
      cases hok
      exact ⟨r, hr, herr, rfl⟩
    · rw [okEntry, if_neg herr] at hok
      cases hok
  · rintro ⟨r, hr, herr, rfl⟩
    exact List.mem_map.mpr
      ⟨(r.service, r.data),
       List.mem_filterMap.mpr ⟨r, hr, by rw [okEntry, if_pos herr]⟩, rfl⟩

lemma mem_dispatchTimeout (budget : Nat) (uid : String) (reg : Registry)
    {r : GoResult} (h : r ∈ dispatchTimeout budget uid reg) :
    ∃ nf ∈ reg, r = workerOutcome budget uid nf.1 nf.2 := by
  rcases List.mem_map.mp h with ⟨nf, hmem, rfl⟩
  exact ⟨nf, hmem, rfl⟩

lemma dispatchTimeout_length (budget : Nat) (uid : String) (reg : Registry) :
    (dispatchTimeout budget uid reg).length = reg.length := by
  simp [dispatchTimeout]

lemma dispatchNoTimeout_length (uid : String) (reg : Registry) :
    (dispatchNoTimeout uid reg).length = reg.length := by
  simp [dispatchNoTimeout]

/-- Concrete one-entry registry whose fetch fails fast with reason `"boom"`. -/
def regBoom : Registry := [("orders", fastFailOrders)]

/-- C2 counterexample: in `AggregateChannelHandler` a failure Outcome is
recorded as `errors = append(errors, res.service)` — the serviceName alone.
For the registry whose single operation `"orders"` fails (non-timeout) with
reason `"boom"`, the finalized `errors` list is exactly `["orders"]`: the
failure reason `"boom"` occurs nowhere in the entry, so the entries are not
tagged with the failing service's failure reason as the claim requires of
every aggregation. -/
theorem channel_errors_lack_reason :
    (aggregateChannel "" regBoom ["orders"]
        (dispatchNoTimeout "123" regBoom)).errors = ["orders"]
      ∧ ¬ List.IsInfix "boom".toList "orders".toList := by
  exact ⟨rfl, by decide⟩

/-- C2 amended (restricted to `AggregateHandlerWithTimeout`; the channel
handler records only the serviceName, without the reason, and keys `results`
by its loop variable): for every aggregation of the timeout handler in which
all N operations complete within the budget, K of them failing and N−K
succeeding, and for every arrival order, the finalized `results` is exactly
(as a multiset) the N−K succeeding serviceNames each paired with the payload
that service returned, `errors` is exactly the K failing entries formatted
`serviceName: reason`, and no serviceName occurs in both. -/
theorem timeout_merge_exact
    (budget : Nat) (uid : String) (reg : Registry) (arrival : List GoResult)
    (hnd : (reg.map Prod.fst).Nodup)
    (hin : ∀ nf ∈ reg, (nf.2 uid).time < budget)
    (hp : List.Perm arrival (dispatchTimeout budget uid reg)) :
    List.Perm (collectTagged arrival).1
        ((reg.filter (fun nf => (nf.2 uid).err.isNone)).map
          (fun nf => (nf.1, (nf.2 uid).data)))
      ∧ List.Perm (collectTagged arrival).2
        ((reg.filter (fun nf => !(nf.2 uid).err.isNone)).map
          (fun nf => nf.1 ++ ": " ++ ((nf.2 uid).err.getD "")))
      ∧ ∀ n ∈ (collectTagged arrival).1.map Prod.fst,
          n ∉ ((reg.filter (fun nf => !(nf.2 uid).err.isNone)).map Prod.fst) := by
  rw [collectTagged_eq]
  refine ⟨?_, ?_, ?_⟩
  · rw [← filterMap_ok_dispatch budget uid reg hin]
    exact hp.filterMap okEntry
  · rw [← filterMap_err_dispatch budget uid reg hin]
    exact hp.filterMap errEntry
  · intro n hn hfail
    rcases (mem_ok_names_iff arrival n).mp hn with ⟨r, hr, herr, hserv⟩
    rcases mem_dispatchTimeout budget uid reg (hp.mem_iff.mp hr)
      with ⟨nfo, hnfo, rfl⟩
    rcases List.mem_map.mp hfail with ⟨nff, hnff, hnffn⟩
    have hnffreg := List.mem_of_mem_filter hnff
    have hfasto := hin nfo hnfo
    have heq : nfo = nff := by
      refine eq_of_fst_eq_of_nodup hnd hnfo hnffreg ?_
      rw [← workerOutcome_service budget uid nfo.1 nfo.2, hserv, hnffn]
    rw [workerOutcome_fast _ _ _ _ hfasto] at herr
    have herr' : (nfo.2 uid).err = none := herr
    have hbad := List.of_mem_filter hnff
    rw [← heq] at hbad
    simp [herr'] at hbad

/-- Witness for the amended C2: two fast services, `"user"` succeeds and
`"orders"` fails with `"boom"`, outcomes arriving in reversed order. -/
theorem timeout_merge_exact_witness :
    List.Perm (collectTagged ((dispatchTimeout 1000 "123" witnessReg).reverse)).1
        ((witnessReg.filter (fun nf => (nf.2 "123").err.isNone)).map
          (fun nf => (nf.1, (nf.2 "123").data)))
      ∧ List.Perm (collectTagged ((dispatchTimeout 1000 "123" witnessReg).reverse)).2
        ((witnessReg.filter (fun nf => !(nf.2 "123").err.isNone)).map
          (fun nf => nf.1 ++ ": " ++ ((nf.2 "123").err.getD "")))
      ∧ ∀ n ∈ (collectTagged ((dispatchTimeout 1000 "123" witnessReg).reverse)).1.map Prod.fst,
          n ∉ ((witnessReg.filter (fun nf => !(nf.2 "123").err.isNone)).map Prod.fst) :=
  timeout_merge_exact 1000 "123" witnessReg
    (dispatchTimeout 1000 "123" witnessReg).reverse
    (by decide)
    (fun nf h => by
      rcases List.mem_cons.mp h with rfl | h'
      · decide
      · rcases List.mem_cons.mp h' with rfl | h''
        · decide
        · cases h'')
    (by decide)

/-- C4: when the deadline fires before a FetchOperation completes (its fetch
time reaches the budget), the late operation's eventual result is discarded
safely: for every arrival order, the finalized `results` map contains no
entry for that serviceName (its payload is never merged), its Outcome is the
synthetic timeout failure surfaced once in `errors`, and the Collector still
consumes exactly N = |registry| outcomes — each worker having sent exactly
one `result` into a buffer of capacity N, no task stays blocked on the
convergence channel. -/
theorem late_completion_discarded
    (budget : Nat) (uid : String) (reg : Registry) (arrival : List GoResult)
    (nf : String × FetchOp)
    (hnd : (reg.map Prod.fst).Nodup)
    (hmem : nf ∈ reg) (hslow : budget ≤ (nf.2 uid).time)
    (hp : List.Perm arrival (dispatchTimeout budget uid reg)) :
    nf.1 ∉ ((collectTagged arrival).1.map Prod.fst)
      ∧ (nf.1 ++ ": " ++ ("service timeout: " ++ ctxDeadlineErr))
          ∈ (collectTagged arrival).2
      ∧ arrival.length = reg.length := by
  rw [collectTagged_eq]
  refine ⟨?_, ?_, ?_⟩
  · intro hn
    rcases (mem_ok_names_iff arrival nf.1).mp hn with ⟨r, hr, herr, hserv⟩
    rcases mem_dispatchTimeout budget uid reg (hp.mem_iff.mp hr)
      with ⟨nfo, hnfo, rfl⟩
    have heq : nfo = nf := by
      refine eq_of_fst_eq_of_nodup hnd hnfo hmem ?_
      rw [← hserv, workerOutcome_service]
    rw [heq, workerOutcome_slow _ _ _ _ hslow] at herr
    cases herr
  · have hd : (nf.1 ++ ": " ++ ("service timeout: " ++ ctxDeadlineErr))
        ∈ (dispatchTimeout budget uid reg).filterMap errEntry := by
      refine List.mem_filterMap.mpr
        ⟨workerOutcome budget uid nf.1 nf.2,
         List.mem_map.mpr ⟨nf, hmem, rfl⟩, ?_⟩
      rw [workerOutcome_slow _ _ _ _ hslow]
      rfl
    exact ((hp.filterMap errEntry).mem_iff).mpr hd
  · have hlen := hp.length_eq
    rwa [dispatchTimeout_length] at hlen

/-- Witness for C4: the 5000 ms fetch under the 1000 ms budget, in a
two-service registry with outcomes arriving in reversed order. -/
theorem late_completion_discarded_witness :
    "notifications"
        ∉ ((collectTagged ((dispatchTimeout 1000 "123"
            [("user", fastUser), ("notifications", verySlowFetch)]).reverse)).1.map Prod.fst)
      ∧ ("notifications" ++ ": " ++ ("service timeout: " ++ ctxDeadlineErr))
          ∈ (collectTagged ((dispatchTimeout 1000 "123"
              [("user", fastUser), ("notifications", verySlowFetch)]).reverse)).2
      ∧ (dispatchTimeout 1000 "123"
          [("user", fastUser), ("notifications", verySlowFetch)]).reverse.length
          = ([("user", fastUser), ("notifications", verySlowFetch)] : Registry).length :=
  late_completion_discarded 1000 "123"
    [("user", fastUser), ("notifications", verySlowFetch)]
    (dispatchTimeout 1000 "123"
      [("user", fastUser), ("notifications", verySlowFetch)]).reverse
    ("notifications", verySlowFetch)
    (by decide)
    (List.mem_cons_of_mem _ (List.mem_cons_self _ _))
    (by decide)
    (by decide)

lemma mem_dispatchNoTimeout (uid : String) (reg : Registry) {r : GoResult}
    (h : r ∈ dispatchNoTimeout uid reg) :
    ∃ nf ∈ reg, r = workerOutcomeNoTimeout uid nf.1 nf.2 := by
  rcases List.mem_map.mp h with ⟨nf, hmem, rfl⟩
  exact ⟨nf, hmem, rfl⟩

/-- C5: in the timeout handler, every DownstreamFailure (a fetch that
completes within budget with a non-nil error) and every Timeout (a fetch cut
off by the deadline) is surfaced as an entry of `errors` tagged with its
serviceName — timeouts carrying the distinguishable reason
`"service timeout: context deadline exceeded"` — and no failure aborts the
aggregation: for every arrival order the Collector finalizes a complete
AggregateResult, with `|results| + |errors| = N`.  Likewise in the WaitGroup
handler `AggregateHandler` (which has no deadline): every fetch failure is
surfaced as a `serviceName: reason` entry and the result is complete. -/
theorem failures_surfaced_never_fatal
    (budget : Nat) (uid : String) (reg : Registry)
    (arrival arrivalW : List GoResult)
    (hp : List.Perm arrival (dispatchTimeout budget uid reg))
    (hpW : List.Perm arrivalW (dispatchNoTimeout uid reg)) :
    (collectTagged arrival).1.length + (collectTagged arrival).2.length
        = reg.length
      ∧ (∀ nf ∈ reg, ∀ e, (nf.2 uid).time < budget → (nf.2 uid).err = some e →
          nf.1 ++ ": " ++ e ∈ (collectTagged arrival).2)
      ∧ (∀ nf ∈ reg, budget ≤ (nf.2 uid).time →
          nf.1 ++ ": " ++ ("service timeout: " ++ ctxDeadlineErr)
            ∈ (collectTagged arrival).2)
      ∧ (∀ nf ∈ reg, ∀ e, (nf.2 uid).err = some e →
          nf.1 ++ ": " ++ e ∈ (collectTagged arrivalW).2)
      ∧ (collectTagged arrivalW).1.length + (collectTagged arrivalW).2.length
          = reg.length := by
  rw [collectTagged_eq]
  refine ⟨?_, ?_, ?_, ?_, ?_⟩
  · show (arrival.filterMap okEntry).length
        + (arrival.filterMap errEntry).length = reg.length
    have h1 := (hp.filterMap okEntry).length_eq
    have h2 := (hp.filterMap errEntry).length_eq
    have h3 := length_okEntry_add_errEntry (dispatchTimeout budget uid reg)
    rw [dispatchTimeout_length] at h3
    omega
  · intro nf hmem e ht he
    have hd : nf.1 ++ ": " ++ e
        ∈ (dispatchTimeout budget uid reg).filterMap errEntry := by
      refine List.mem_filterMap.mpr
        ⟨workerOutcome budget uid nf.1 nf.2,
         List.mem_map.mpr ⟨nf, hmem, rfl⟩, ?_⟩
      rw [workerOutcome_fast _ _ _ _ ht]
      simp [errEntry, he]
    exact ((hp.filterMap errEntry).mem_iff).mpr hd
  · intro nf hmem hslow
    have hd : nf.1 ++ ": " ++ ("service timeout: " ++ ctxDeadlineErr)
        ∈ (dispatchTimeout budget uid reg).filterMap errEntry := by
      refine List.mem_filterMap.mpr
        ⟨workerOutcome budget uid nf.1 nf.2,
         List.mem_map.mpr ⟨nf, hmem, rfl⟩, ?_⟩
      rw [workerOutcome_slow _ _ _ _ hslow]
      rfl
    exact ((hp.filterMap errEntry).mem_iff).mpr hd
  · intro nf hmem e he
    show nf.1 ++ ": " ++ e ∈ (collectTagged arrivalW).2
    rw [collectTagged_eq]
    have hd : nf.1 ++ ": " ++ e
        ∈ (dispatchNoTimeout uid reg).filterMap errEntry := by
      refine List.mem_filterMap.mpr
        ⟨workerOutcomeNoTimeout uid nf.1 nf.2,
         List.mem_map.mpr ⟨nf, hmem, rfl⟩, ?_⟩
      simp [errEntry, workerOutcomeNoTimeout, he]
    exact ((hpW.filterMap errEntry).mem_iff).mpr hd
  · show (collectTagged arrivalW).1.length + (collectTagged arrivalW).2.length
        = reg.length
    rw [collectTagged_eq]
    show (arrivalW.filterMap okEntry).length
        + (arrivalW.filterMap errEntry).length = reg.length
    have h1 := (hpW.filterMap okEntry).length_eq
    have h2 := (hpW.filterMap errEntry).length_eq
    have h3 := length_okEntry_add_errEntry (dispatchNoTimeout uid reg)
    rw [dispatchNoTimeout_length] at h3
    omega

/-- Concrete three-entry registry: one success, one DownstreamFailure, one
fetch slower than the budget. -/
def witnessReg3 : Registry :=
  [("user", fastUser), ("orders", fastFailOrders),
   ("notifications", verySlowFetch)]

/-- Witness for C5 on the three-entry registry with reversed arrival. -/
theorem failures_surfaced_never_fatal_witness :
    (collectTagged ((dispatchTimeout 1000 "123" witnessReg3).reverse)).1.length
        + (collectTagged ((dispatchTimeout 1000 "123" witnessReg3).reverse)).2.length
        = witnessReg3.length
      ∧ ("orders" ++ ": " ++ "boom")
          ∈ (collectTagged ((dispatchTimeout 1000 "123" witnessReg3).reverse)).2
      ∧ ("notifications" ++ ": " ++ ("service timeout: " ++ ctxDeadlineErr))
          ∈ (collectTagged ((dispatchTimeout 1000 "123" witnessReg3).reverse)).2
      ∧ ("orders" ++ ": " ++ "boom")
          ∈ (collectTagged ((dispatchNoTimeout "123" witnessReg3).reverse)).2 := by
  have h := failures_surfaced_never_fatal 1000 "123" witnessReg3
    (dispatchTimeout 1000 "123" witnessReg3).reverse
    (dispatchNoTimeout "123" witnessReg3).reverse (by decide) (by decide)
  refine ⟨h.1, ?_, ?_, ?_⟩
  · exact h.2.1 ("orders", fastFailOrders)
      (List.mem_cons_of_mem _ (List.mem_cons_self _ _)) "boom"
      (by decide) (by decide)
  · exact h.2.2.1 ("notifications", verySlowFetch)
      (List.mem_cons_of_mem _ (List.mem_cons_of_mem _ (List.mem_cons_self _ _)))
      (by decide)
  · exact h.2.2.2.1 ("orders", fastFailOrders)
      (List.mem_cons_of_mem _ (List.mem_cons_self _ _)) "boom" (by decide)

/-- C7: the `success` field of `AggregateHandler`'s finalized response is
true iff its `errors` list is empty, and partial success is surfaced rather
than collapsed: the response always carries all N outcomes split between
`data` and `errors` (`|data| + |errors| = N`), whatever the merge order. -/
theorem wg_success_iff_no_errors
    (raw : String) (reg : Registry) (arrival : List GoResult)
    (hp : List.Perm arrival (dispatchNoTimeout (effectiveUserID raw) reg)) :
    ((aggregateWG raw reg arrival).success = true
        ↔ (aggregateWG raw reg arrival).errors = [])
      ∧ (aggregateWG raw reg arrival).data.length
          + (aggregateWG raw reg arrival).errors.length = reg.length := by
  constructor
  · simp [aggregateWG, List.length_eq_zero]
  · show (collectTagged arrival).1.length + (collectTagged arrival).2.length
        = reg.length
    rw [collectTagged_eq]
    show (arrival.filterMap okEntry).length
        + (arrival.filterMap errEntry).length = reg.length
    have h1 := (hp.filterMap okEntry).length_eq
    have h2 := (hp.filterMap errEntry).length_eq
    have h3 := length_okEntry_add_errEntry
      (dispatchNoTimeout (effectiveUserID raw) reg)
    rw [dispatchNoTimeout_length] at h3
    omega

/-- Witness for C7 at a partial-success registry: `"user"` succeeds,
`"orders"` fails, arrival reversed. -/
theorem wg_success_iff_no_errors_witness :
    ((aggregateWG "" witnessReg
          ((dispatchNoTimeout "123" witnessReg).reverse)).success = true
        ↔ (aggregateWG "" witnessReg
            ((dispatchNoTimeout "123" witnessReg).reverse)).errors = [])
      ∧ (aggregateWG "" witnessReg
            ((dispatchNoTimeout "123" witnessReg).reverse)).data.length
          + (aggregateWG "" witnessReg
              ((dispatchNoTimeout "123" witnessReg).reverse)).errors.length
          = witnessReg.length :=
  wg_success_iff_no_errors "" witnessReg
    ((dispatchNoTimeout "123" witnessReg).reverse) (by decide)

/-- Concrete fetch behaviour: a second fast success, for the all-success
registry. -/
def fastOrdersOk : FetchOp := fun _ => { time := 60, data := Payload.str "orders-data", err := none }

/-- Concrete two-entry registry in which every fetch succeeds within the
budget. -/
def regAllOk : Registry := [("user", fastUser), ("orders", fastOrdersOk)]

/-- C8: when every FetchOperation of the registry succeeds within the
budget, the timeout handler's finalized result has exactly N entries in
`results`, an empty `errors` list and `timed_out = false` — for every
arrival order; and the channel handler likewise finalizes N `results`
entries and no errors (it has no `timedOut` at all, see C6). -/
theorem all_success_within_budget
    (budget : Nat) (raw : String) (reg : Registry)
    (arrivalT arrivalC : List GoResult) (iterKeys : List String)
    (hall : ∀ nf ∈ reg, (nf.2 (effectiveUserID raw)).time < budget
              ∧ (nf.2 (effectiveUserID raw)).err = none)
    (hpT : List.Perm arrivalT (dispatchTimeout budget (effectiveUserID raw) reg))
    (hpC : List.Perm arrivalC (dispatchNoTimeout (effectiveUserID raw) reg))
    (hkeys : iterKeys.length = reg.length) :
    (aggregateWithTimeout budget raw reg arrivalT).data.length = reg.length
      ∧ (aggregateWithTimeout budget raw reg arrivalT).errors = []
      ∧ (aggregateWithTimeout budget raw reg arrivalT).timed_out = false
      ∧ (aggregateChannel raw reg iterKeys arrivalC).data.length = reg.length
      ∧ (aggregateChannel raw reg iterKeys arrivalC).errors = [] := by
  have hin : ∀ nf ∈ reg, (nf.2 (effectiveUserID raw)).time < budget :=
    fun nf h => (hall nf h).1
  have hok := filterMap_ok_dispatch budget (effectiveUserID raw) reg hin
  have herr := filterMap_err_dispatch budget (effectiveUserID raw) reg hin
  have hfilter_all : reg.filter
      (fun nf => (nf.2 (effectiveUserID raw)).err.isNone) = reg :=
    List.filter_eq_self.mpr (fun nf h => by simp [(hall nf h).2])
  have hfilter_nil : reg.filter
      (fun nf => !(nf.2 (effectiveUserID raw)).err.isNone) = [] :=
    List.filter_eq_nil_iff.mpr (fun nf h => by simp [(hall nf h).2])
  refine ⟨?_, ?_, ?_, ?_, ?_⟩
  · show (collectTagged arrivalT).1.length = reg.length
    rw [collectTagged_eq]
    show (arrivalT.filterMap okEntry).length = reg.length
    rw [(hpT.filterMap okEntry).length_eq, hok, hfilter_all, List.length_map]
  · show (collectTagged arrivalT).2 = []
    rw [collectTagged_eq]
    show arrivalT.filterMap errEntry = []
    apply List.Perm.eq_nil
    have h := hpT.filterMap errEntry
    rw [herr, hfilter_nil] at h
    simpa using h
  · show timedOutFlag budget (effectiveUserID raw) reg = false
    rw [timedOutFlag, List.any_eq_false]
    intro nf hmem
    have ht := (hall nf hmem).1
    simp only [decide_eq_true_eq]
    omega
  · show (collectChannel iterKeys arrivalC).1.length = reg.length
    have hzip : ∀ p ∈ iterKeys.zip arrivalC, p.2.err = none := by
      rintro ⟨k, r⟩ hpz
      have hr : r ∈ arrivalC := (List.of_mem_zip hpz).2
      rcases mem_dispatchNoTimeout (effectiveUserID raw) reg
        (hpC.mem_iff.mp hr) with ⟨nf, hmem, rfl⟩
      exact (hall nf hmem).2
    rw [collectChannel, foldl_mergeChannel_all_ok _ _ hzip]
    simp [List.length_zip, hkeys, hpC.length_eq, dispatchNoTimeout_length]
  · show (collectChannel iterKeys arrivalC).2 = []
    have hzip : ∀ p ∈ iterKeys.zip arrivalC, p.2.err = none := by
      rintro ⟨k, r⟩ hpz
      have hr : r ∈ arrivalC := (List.of_mem_zip hpz).2
      rcases mem_dispatchNoTimeout (effectiveUserID raw) reg
        (hpC.mem_iff.mp hr) with ⟨nf, hmem, rfl⟩
      exact (hall nf hmem).2
    rw [collectChannel, foldl_mergeChannel_all_ok _ _ hzip]

/-- Witness for C8: the all-success registry under the 1000 ms budget, both
arrival orders reversed, the channel collector iterating in the order
`["orders", "user"]`. -/
theorem all_success_within_budget_witness :
    (aggregateWithTimeout 1000 "" regAllOk
        ((dispatchTimeout 1000 (effectiveUserID "") regAllOk).reverse)).data.length
        = regAllOk.length
      ∧ (aggregateWithTimeout 1000 "" regAllOk
          ((dispatchTimeout 1000 (effectiveUserID "") regAllOk).reverse)).errors = []
      ∧ (aggregateWithTimeout 1000 "" regAllOk
          ((dispatchTimeout 1000 (effectiveUserID "") regAllOk).reverse)).timed_out = false
      ∧ (aggregateChannel "" regAllOk ["orders", "user"]
          ((dispatchNoTimeout (effectiveUserID "") regAllOk).reverse)).data.length
          = regAllOk.length
      ∧ (aggregateChannel "" regAllOk ["orders", "user"]
          ((dispatchNoTimeout (effectiveUserID "") regAllOk).reverse)).errors = [] :=
  all_success_within_budget 1000 "" regAllOk
    ((dispatchTimeout 1000 (effectiveUserID "") regAllOk).reverse)
    ((dispatchNoTimeout (effectiveUserID "") regAllOk).reverse)
    ["orders", "user"]
    (fun nf h => by
      rcases List.mem_cons.mp h with rfl | h'
      · exact ⟨by decide, by decide⟩
      · rcases List.mem_cons.mp h' with rfl | h''
        · exact ⟨by decide, by decide⟩
        · cases h'')
    (by decide) (by decide) (by decide)

end Gateway
